import Mathlib

/-!
# Verification of the schema-driven CRUD engine in `src/server.py`

This file gives a shallow embedding of the generic schema-introspection and
data-binding engine of the repository (the helpers `get_allowed_tables`,
`make_human_readable`, `get_dropdown_options` and the request handlers
`show_table`, `show_add_form`, `create_row`, `delete_row` of `src/server.py`)
and proves or refutes the specification claims about it.

Modelling conventions:
* The database catalog and data are an explicit `Database` value: each table
  carries its name, its ordered column descriptors (as returned by
  `information_schema.columns`), the column list of its PRIMARY KEY constraint
  (as returned by the `key_column_usage`/`table_constraints` join) and its rows.
* A row and a submitted JSON payload are association lists from column name to
  `Value`.  Python `dict` assignment is modelled by `dictSet` (replace in
  place, else append), which matches insertion-order semantics of `dict`.
* Machine-level details that the code never relies on are modelled at the
  Python semantics level: `str.isdigit` is modelled for ASCII digit strings,
  `datetime.strptime(v, "%Y-%m-%d")` as a calendar-date parser, SQL `ORDER BY`
  over the embedded values by their rendered text.
* Each handler returns its HTTP-level result, the database after the request,
  and a trace of the storage-layer interactions it performed (`Effect`), so
  that "rejected before any catalog read / write" is a statement about the
  trace.
-/

/-- A value as it travels through the engine: JSON strings, JSON numbers,
JSON null, and the calendar dates produced by date coercion. -/
inductive Value where
  | vStr (s : String)
  | vInt (n : Int)
  | vNull
  | vDate (y m d : Nat)
deriving DecidableEq

/-- A row of `information_schema.columns` for one column: name, declared
type, and nullability flag (the source reads `column_name`, `data_type`,
`is_nullable`). -/
structure ColumnInfo where
  column_name : String
  data_type : String
  is_nullable : String
deriving DecidableEq

/-- A stored row: an association list from column name to value. -/
abbrev Row := List (String × Value)

/-- Catalog and data state of one relation. `pkCols` is the (ordered) list of
columns participating in the PRIMARY KEY constraint; the source only ever uses
the first returned row of the constraint join. -/
structure Table where
  name : String
  columns : List ColumnInfo
  pkCols : List String
  rows : List Row
deriving DecidableEq

/-- The whole database: the tables of the `public` schema. -/
structure Database where
  tables : List Table
deriving DecidableEq

/-- One storage-layer interaction of a handler. `write` records the column
list named by the parameterized INSERT/UPDATE/DELETE statement. -/
inductive Effect where
  | registryRead
  | catalogRead (table : String)
  | dataRead (table : String)
  | write (table : String) (cols : List String)
deriving DecidableEq

/-- One dropdown entry, `{"id": r[pk_col], "name": str(r[label_col])}`. -/
structure OptionEntry where
  id : Value
  name : String
deriving DecidableEq

/-- One form field descriptor produced by `show_add_form`. -/
structure FormField where
  column_name : String
  data_type : String
  label : String
  required : Bool
  options : Option (List OptionEntry)
deriving DecidableEq

/-- Render context of the table view page. -/
structure PageContext where
  table_name : String
  table_title : String
  columnLabels : List (String × String)
  rows : List Row
  pk_column : Option String
deriving DecidableEq

/-- Outcome of a handler at the HTTP boundary.  `error msg code` models
`response.json({"error": msg}, status=code)` (and `response.text` for the
table/form pages, whose body is also an error string); `success s` models
`response.json({"status": s})`; `page`/`form`/`csv` model the rendered
payload handed to the (out of scope) template/CSV layer. -/
inductive ApiResult where
  | success (status : String)
  | error (msg : String) (code : Nat)
  | page (ctx : PageContext)
  | form (table_name : String) (table_title : String) (fields : List FormField)
  | csv (body : String)
deriving DecidableEq

/-- Outcome of a read-only handler. -/
structure ReadOutcome where
  result : ApiResult
  effects : List Effect
deriving DecidableEq

/-- Outcome of a writing handler. -/
structure WriteOutcome where
  result : ApiResult
  db : Database
  effects : List Effect
deriving DecidableEq

/-- Outcome of the delete handler; `affected` is the affected-row count of
the DELETE statement (the "affected rows" signal of the spec). -/
structure DeleteOutcome where
  result : ApiResult
  affected : Nat
  db : Database
  effects : List Effect
deriving DecidableEq

/-! ## Python dictionary and string primitives -/

/-- Python `dict` assignment `d[k] = v`: replace the binding in place if the
key is present, otherwise append it. -/
def dictSet : List (String × Value) → String → Value → List (String × Value)
  | [], k, v => [(k, v)]
  | (k0, v0) :: rest, k, v =>
    if k0 = k then (k, v) :: rest else (k0, v0) :: dictSet rest k v

/-- Lookup in an association list (first binding wins, as in a `dict` that
was built left to right). -/
def lookupD : List (String × Value) → String → Option Value
  | [], _ => none
  | (k0, v0) :: rest, k => if k0 = k then some v0 else lookupD rest k

/-- `p` is a prefix of `s` (character-list test; Lean's built-in
`String.startsWith` is byte-position based and is avoided so that concrete
instances evaluate inside the kernel). -/
def strStartsWith (s p : String) : Bool :=
  p.toList.isPrefixOf s.toList

/-- `p` is a suffix of `s` (Python `str.endswith`). -/
def strEndsWith (s p : String) : Bool :=
  p.toList.reverse.isPrefixOf s.toList.reverse

/-- First `n` characters of `s` (Python `s[:n]`). -/
def strTake (s : String) (n : Nat) : String :=
  String.mk (s.toList.take n)

/-- All but the first `n` characters of `s` (Python `s[n:]`). -/
def strDrop (s : String) (n : Nat) : String :=
  String.mk (s.toList.drop n)

/-- Split a character list on the dash character (Python `s.split("-")`
for the one separator the engine uses). -/
def splitOnDash : List Char → List (List Char)
  | [] => [[]]
  | '-' :: rest => [] :: splitOnDash rest
  | c :: rest =>
    match splitOnDash rest with
    | g :: gs => (c :: g) :: gs
    | [] => [[c]]

/-- Python `str.strip()`: remove leading and trailing whitespace. -/
def pyStrip (s : String) : String :=
  String.mk (((s.toList.dropWhile Char.isWhitespace).reverse.dropWhile
    Char.isWhitespace).reverse)

/-- Python `str.isdigit()` on the ASCII strings the engine handles: nonempty
and all characters decimal digits. -/
def pyIsdigit (s : String) : Bool :=
  !s.toList.isEmpty && s.toList.all Char.isDigit

/-- Numeric value of a digit string (the `int(...)` of a validated
nonnegative literal). -/
def strToNat (s : String) : Nat :=
  s.toList.foldl (fun a c => a * 10 + (c.toNat - 48)) 0

/-- Python `int(...)` of a string already validated to be digits or a minus
sign followed by digits. -/
def strToInt (s : String) : Int :=
  if strStartsWith s "-" then -(strToNat (strDrop s 1) : Int) else (strToNat s : Int)

/-- Python `int(...)` on an arbitrary string: strip whitespace, accept an
optional sign followed by digits, otherwise raise (modelled as `none`). -/
def pyIntParse (s : String) : Option Int :=
  let t := pyStrip s
  if pyIsdigit t then some (strToNat t : Int)
  else if strStartsWith t "-" && pyIsdigit (strDrop t 1) then
    some (-(strToNat (strDrop t 1) : Int))
  else if strStartsWith t "+" && pyIsdigit (strDrop t 1) then
    some (strToNat (strDrop t 1) : Int)
  else none

/-- Does `needle` occur as a contiguous run inside the character list? -/
def charsInfix (needle : List Char) : List Char → Bool
  | [] => needle.isEmpty
  | c :: rest => needle.isPrefixOf (c :: rest) || charsInfix needle rest

/-- Python `sub in s` substring test. -/
def strContains (s sub : String) : Bool :=
  charsInfix sub.toList s.toList

/-! ## Label formatter (`make_human_readable`, src/server.py lines 92-95) -/

/-- `text.replace("phc_", "")`: remove every (leftmost, non-overlapping)
occurrence of `phc_`. -/
def replacePhcEmpty : List Char → List Char
  | 'p' :: 'h' :: 'c' :: '_' :: rest => replacePhcEmpty rest
  | c :: rest => c :: replacePhcEmpty rest
  | [] => []

/-- `text.replace("_t", "")`: remove every (leftmost, non-overlapping)
occurrence of `_t`. -/
def replaceTEmpty : List Char → List Char
  | '_' :: 't' :: rest => replaceTEmpty rest
  | c :: rest => c :: replaceTEmpty rest
  | [] => []

/-- Python `str.title()`: the first letter of each run of letters is
uppercased, the following letters lowercased; other characters separate the
runs and are kept. `prevAlpha` says whether the previous character was a
letter. -/
def pyTitle (prevAlpha : Bool) : List Char → List Char
  | [] => []
  | c :: rest =>
    if c.isAlpha then
      (if prevAlpha then c.toLower else c.toUpper) :: pyTitle true rest
    else c :: pyTitle false rest

/-- The scope-stripping stage of the label formatter:
`text.replace("phc_", "").replace("_t", "")`. -/
def stripScope (s : String) : List Char :=
  replaceTEmpty (replacePhcEmpty s.toList)

/-- The short-code stage: `if len(text) > 4 and text[3] == '_': text = text[4:]`. -/
def shortCodeStep (t : List Char) : List Char :=
  if t.length > 4 && (t.get? 3 == some '_') then t.drop 4 else t

/-- The rendering stage: `text.replace("_", " ").title()`. -/
def labelFinish (t : List Char) : String :=
  String.mk (pyTitle false (t.map (fun c => if c = '_' then ' ' else c)))

/-- `make_human_readable` (src/server.py lines 92-95), written exactly as the
source composes its three statements. -/
def make_human_readable (s : String) : String :=
  let t := replaceTEmpty (replacePhcEmpty s.toList)
  let t2 := if t.length > 4 && (t.get? 3 == some '_') then t.drop 4 else t
  String.mk (pyTitle false (t2.map (fun c => if c = '_' then ' ' else c)))

/-! ## Table registry and schema inspector (src/server.py lines 88-90, 180-183) -/

/-- `get_allowed_tables` (lines 88-90): names of the tables of the `public`
schema matching `LIKE 'phc_%'`, in catalog order. -/
def get_allowed_tables (db : Database) : List String :=
  (db.tables.filter (fun t => strStartsWith t.name "phc_")).map (fun t => t.name)

/-- The catalog row set for one table name (the embedding keys
`information_schema` by table name, as every query in the source does). -/
def findTable (db : Database) (tn : String) : Option Table :=
  db.tables.find? (fun t => t.name = tn)

/-- `SELECT column_name, data_type, is_nullable FROM information_schema.columns
WHERE table_name = $1 ORDER BY ordinal_position`: the ordered column
descriptors, empty when no such table exists. -/
def catalogColumns (db : Database) (tn : String) : List ColumnInfo :=
  match findTable db tn with
  | some t => t.columns
  | none => []

/-- The primary-key query (`key_column_usage` joined with `table_constraints`
filtered to `PRIMARY KEY`, `fetchrow`): the first constraint column, if any. -/
def catalogPk (db : Database) (tn : String) : Option String :=
  match findTable db tn with
  | some t => t.pkCols.head?
  | none => none

/-- The `data_type` of one column of one table
(`SELECT data_type FROM information_schema.columns WHERE table_name = $1 AND
column_name = $2`, `fetchval`). -/
def schemaType (db : Database) (tn k : String) : Option String :=
  ((catalogColumns db tn).find? (fun c => c.column_name = k)).map
    (fun c => c.data_type)

/-- The rows of one table, when it exists. -/
def rowsOf (db : Database) (tn : String) : Option (List Row) :=
  match findTable db tn with
  | some t => some t.rows
  | none => none

/-! ## Lookup resolver (`get_dropdown_options`, src/server.py lines 97-122) -/

/-- The static manual override mapping from entity name to target table name
(line 101-104). -/
def manual_map (e : String) : Option String :=
  if e = "dept" then some "phc_dept_t"
  else if e = "org" then some "phc_orgs_t"
  else if e = "services" then some "phc_services_t"
  else if e = "cost_center" then some "phc_cost_center_t"
  else if e = "app" then some "phc_apps_t"
  else if e = "apps" then some "phc_apps_t"
  else none

/-- Entity extraction from a foreign-key column name (lines 99-100):
`base = fk[:-3]`, then the same position-3 short-code strip as the label
formatter. -/
def fk_entity (fk : String) : String :=
  let base := strTake fk (fk.length - 3)
  if base.length > 4 && (base.toList.get? 3 == some '_') then strDrop base 4
  else base

/-- The substrings the source tests for the display column (line 118). -/
def matchSubs : List String := ["name", "title", "code", "desc"]

/-- Does a column name contain one of the display substrings of the source? -/
def matchesAny (c : String) : Bool :=
  matchSubs.any (fun x => strContains c x)

/-- The display-column selection of the source (line 118):
`next((c for c in col_names if any(x in c for x in [...])), pk_col)` — the
first column in catalog order containing any of the four substrings, the key
column otherwise. -/
def label_col_code (col_names : List String) (pk_col : Option String) :
    Option String :=
  match col_names.find? matchesAny with
  | some c => some c
  | none => pk_col

/-- Rendered text of a value, as `str(...)` shows it in a dropdown label
(`str(None)` is `"None"`; dates render as ISO text). -/
def Value.toStr : Value → String
  | .vStr s => s
  | .vInt n => toString n
  | .vNull => "None"
  | .vDate y m d => toString y ++ "-" ++ toString m ++ "-" ++ toString d

/-- Byte-wise text comparison used to model SQL `ORDER BY` over the rendered
labels. -/
def charsLe : List Char → List Char → Bool
  | [], _ => true
  | _ :: _, [] => false
  | a :: as, b :: bs =>
    if a = b then charsLe as bs else decide (a.toNat < b.toNat)

/-- Text order on strings for `ORDER BY`. -/
def strLe (a b : String) : Bool := charsLe a.toList b.toList

/-- Insert into a list sorted by `le` (stable). -/
def insertLe (le : α → α → Bool) (x : α) : List α → List α
  | [] => [x]
  | y :: ys => if le x y then x :: y :: ys else y :: insertLe le x ys

/-- Insertion sort by `le` (the deterministic model of SQL `ORDER BY`). -/
def sortByLe (le : α → α → Bool) : List α → List α
  | [] => []
  | x :: xs => insertLe le x (sortByLe le xs)

/-- `get_dropdown_options` (src/server.py lines 97-122).  The manual override
is consulted first; only when it has no entry are the pluralization
candidates intersected with the live registry (first registry entry wins).
The whole body is wrapped in `try/except: return None`; the failure paths of
the embedding (missing target table, no key column) return `none` exactly
where the source returns `None`. -/
def get_dropdown_options (db : Database) (fk_column_name : String) :
    Option (List OptionEntry) :=
  let entity := fk_entity fk_column_name
  let target1 :=
    match manual_map entity with
    | some t => some t
    | none =>
      let possible := ["phc_" ++ entity ++ "_t", "phc_" ++ entity ++ "s_t",
        "phc_" ++ entity ++ "es_t"]
        ++ (if strEndsWith entity "y" then
              ["phc_" ++ strTake entity (entity.length - 1) ++ "ies_t"]
            else [])
      (get_allowed_tables db).find? (fun rt => possible.contains rt)
  match target1 with
  | none => none
  | some target =>
    let col_names := (catalogColumns db target).map (fun c => c.column_name)
    let pk_col := col_names.find? (fun c => strEndsWith c "_id")
    let label_col := label_col_code col_names pk_col
    match pk_col, label_col with
    | some p, some l =>
      match findTable db target with
      | none => none
      | some T =>
        let pairs := T.rows.map (fun r =>
          ((lookupD r p).getD .vNull, (lookupD r l).getD .vNull))
        let sorted := sortByLe
          (fun a b => strLe (Value.toStr a.2) (Value.toStr b.2)) pairs
        some ((sorted.take 100).map (fun pr =>
          ({ id := pr.1, name := Value.toStr pr.2 } : OptionEntry)))
    | _, _ => none

/-- Modelled from the spec's words, for comparison with `label_col_code`
(claim C5): "testing a priority list of substrings (name, title, code, desc,
description, detail) in that fixed priority order against all column names,
falling back to the key column itself if none match" — an earlier substring
wins over a later one regardless of column order. -/
def specSubs : List String :=
  ["name", "title", "code", "desc", "description", "detail"]

/-- Modelled from the spec's words (claim C5): the spec-side display-column
selection. -/
def display_column_spec (col_names : List String) (pk_col : Option String) :
    Option String :=
  match specSubs.findSome? (fun x => col_names.find? (fun c => strContains c x)) with
  | some c => some c
  | none => pk_col

/-! ## Date parsing (`datetime.strptime(v, "%Y-%m-%d").date()`) -/

/-- Gregorian leap-year test. -/
def isLeap (y : Nat) : Bool :=
  (y % 4 == 0 && y % 100 != 0) || y % 400 == 0

/-- Days of a month of the proleptic Gregorian calendar. -/
def daysInMonth (y m : Nat) : Nat :=
  if m = 2 then (if isLeap y then 29 else 28)
  else if m = 4 || m = 6 || m = 9 || m = 11 then 30
  else 31

/-- `datetime.strptime(v, "%Y-%m-%d")`: three dash-separated digit groups
(year up to four digits, month and day up to two, zero padding optional),
subject to calendar validity; `none` models the raised `ValueError`. -/
def parseDateYMD (s : String) : Option (Nat × Nat × Nat) :=
  match (splitOnDash s.toList).map String.mk with
  | [ys, ms, ds] =>
    if pyIsdigit ys && pyIsdigit ms && pyIsdigit ds
        && ys.length ≤ 4 && ms.length ≤ 2 && ds.length ≤ 2 then
      let y := strToNat ys
      let m := strToNat ms
      let d := strToNat ds
      if 1 ≤ y && y ≤ 9999 && 1 ≤ m && m ≤ 12 && 1 ≤ d && d ≤ daysInMonth y m
      then some (y, m, d)
      else none
    else none
  | _ => none

/-! ## Value coercer (the `clean_data` loop of `create_row`, lines 219-234) -/

/-- The audit-suffix exclusion test of line 221:
`k.endswith(('_created', '_modified', '_created_by', '_modified_by'))`. -/
def auditSuffixed (k : String) : Bool :=
  strEndsWith k "_created" || strEndsWith k "_modified"
    || strEndsWith k "_created_by" || strEndsWith k "_modified_by"

/-- The integer/numeric type family of the create path (line 226). -/
def numFamilyCreate : List String := ["integer", "bigint", "numeric", "smallint"]

/-- The integer/numeric type family of the delete path (line 260). -/
def numFamilyDelete : List String := ["integer", "bigint", "smallint", "numeric"]

/-- The numeric coercion of lines 227-228: strip, convert to `int` exactly
when the stripped text is all digits or a minus sign followed by digits,
otherwise keep the *stripped* text. -/
def coerce_numeric (s : String) : Value :=
  let v := pyStrip s
  if pyIsdigit v || (strStartsWith v "-" && pyIsdigit (strDrop v 1)) then
    .vInt (strToInt v)
  else .vStr v

/-- One iteration of the `for k, v in data.items()` loop (lines 220-229):
skip empty/null values, the primary-key field and audit-suffixed fields; date
columns parse hard (`Except.error` models the early `400` return); numeric
columns get `coerce_numeric`; everything else passes through. -/
def coerceStep (pk : Option String) (schema : List ColumnInfo)
    (acc : List (String × Value)) (k : String) (v : Value) :
    Except String (List (String × Value)) :=
  if v = Value.vStr "" ∨ v = Value.vNull ∨ pk = some k ∨ auditSuffixed k then
    .ok acc
  else
    match (schema.find? (fun c => c.column_name = k)).map
        (fun c => c.data_type), v with
    | some "date", .vStr s =>
      match parseDateYMD s with
      | some (y, m, d) => .ok (dictSet acc k (.vDate y m d))
      | none => .error ("Invalid date: " ++ s)
    | some t, .vStr s =>
      if t ∈ numFamilyCreate then .ok (dictSet acc k (coerce_numeric s))
      else .ok (dictSet acc k v)
    | _, _ => .ok (dictSet acc k v)

/-- The whole `clean_data` loop over the payload, threading the accumulator
dictionary; the first date failure aborts the write. -/
def buildClean (pk : Option String) (schema : List ColumnInfo) :
    List (String × Value) → List (String × Value) →
    Except String (List (String × Value))
  | acc, [] => .ok acc
  | acc, (k, v) :: rest =>
    match coerceStep pk schema acc k v with
    | .error m => .error m
    | .ok acc2 => buildClean pk schema acc2 rest

/-- `SELECT MAX({pk_column}) FROM {table}` over the embedded rows: the
maximum of the integer key values, `none` for an empty table (SQL `MAX`
ignores rows without an integer key value, and `fetchval` returns `None`
when there are none). -/
def maxPk (db : Database) (tn pk : String) : Option Int :=
  match rowsOf db tn with
  | none => none
  | some rs =>
    (rs.filterMap (fun r =>
      match lookupD r pk with
      | some (.vInt n) => some n
      | _ => none)).max?

/-- `(int(max_val) + 1) if max_val is not None else 1` (line 232). -/
def nextIdVal (db : Database) (tn pk : String) : Int :=
  match maxPk db tn pk with
  | some m => m + 1
  | none => 1

/-- The audit-actor injection of lines 233-234: every schema column ending in
`_created_by` or `_modified_by` is set to the fixed actor marker `System`. -/
def auditInject (schema : List ColumnInfo) (d : List (String × Value)) :
    List (String × Value) :=
  schema.foldl (fun d c =>
    if strEndsWith c.column_name "_created_by" || strEndsWith c.column_name "_modified_by"
    then dictSet d c.column_name (.vStr "System")
    else d) d

/-- The full cleaned field map of one create request: the coercion loop, the
`max+1` key injection, and the audit-actor injection, in source order
(lines 219-234). -/
def buildCleanFull (db : Database) (tn : String)
    (data : List (String × Value)) : Except String (List (String × Value)) :=
  let pk := catalogPk db tn
  let schema := catalogColumns db tn
  match buildClean pk schema [] data with
  | .error m => .error m
  | .ok cd =>
    let cd2 :=
      match pk with
      | some p => dictSet cd p (.vInt (nextIdVal db tn p))
      | none => cd
    .ok (auditInject schema cd2)

/-! ## Record writer and handlers -/

/-- Append an inserted row to its table. -/
def appendRow (db : Database) (tn : String) (r : Row) : Database :=
  ⟨db.tables.map (fun t => if t.name = tn then
    { t with rows := t.rows ++ [r] } else t)⟩

/-- Column list of the `log_action` INSERT into `phc_user_log_t`
(lines 69-73); the logging write is traced as an effect only — its own
`try/except` swallows any failure and it never alters the handler result. -/
def logCols : List String :=
  ["pul_parent", "pul_description", "pul_created", "pul_modified",
    "pul_created_by", "pul_modified_by"]

/-- `create_row` (src/server.py lines 207-245).  Registry guard first; then
the primary-key and column-catalog reads, the coercion pipeline
(`buildCleanFull`), the empty-payload guard, and the parameterized INSERT
naming exactly the cleaned map's columns. -/
def create_row (db : Database) (tn : String) (data : List (String × Value)) :
    WriteOutcome :=
  if tn ∈ get_allowed_tables db then
    let effs := [Effect.registryRead, Effect.catalogRead tn, Effect.catalogRead tn]
    match buildCleanFull db tn data with
    | .error m => ⟨.error m 400, db, effs⟩
    | .ok cd =>
      let effs := effs ++
        (match catalogPk db tn with
         | some _ => [Effect.dataRead tn]
         | none => [])
      if cd = [] then ⟨.error "No valid data provided" 400, db, effs⟩
      else
        ⟨.success "success", appendRow db tn cd,
          effs ++ [Effect.write tn (cd.map (fun p => p.1)),
            Effect.write "phc_user_log_t" logCols]⟩
  else ⟨.error "Invalid table" 400, db, [Effect.registryRead]⟩

/-- The key-value coercion of the delete path (lines 258-260): fetch the key
column's declared type, convert the path parameter with `int(...)` when the
type is numeric (`none` models the raised `ValueError`, caught as a 500). -/
def deleteVal (db : Database) (tn pk_column pk_val : String) : Option Value :=
  match schemaType db tn pk_column with
  | some t =>
    if t ∈ numFamilyDelete then (pyIntParse pk_val).map .vInt
    else some (.vStr pk_val)
  | none => some (.vStr pk_val)

/-- Remove the rows whose key column equals the coerced key value. -/
def removeRows (db : Database) (tn pk : String) (val : Value) : Database :=
  ⟨db.tables.map (fun t => if t.name = tn then
    { t with rows := t.rows.filter (fun r => !(lookupD r pk = some val : Bool)) }
    else t)⟩

/-- `delete_row` (src/server.py lines 247-267).  Registry guard, then the
primary-key requirement, the key-type read and coercion, and a single
parameterized DELETE with no existence pre-check; the handler ignores the
affected count and returns `{"status": "deleted"}`. -/
def delete_row (db : Database) (tn pk_val : String) : DeleteOutcome :=
  if tn ∈ get_allowed_tables db then
    match catalogPk db tn with
    | none =>
      ⟨.error "Table has no Primary Key" 400, 0, db,
        [Effect.registryRead, Effect.catalogRead tn]⟩
    | some pk_column =>
      let effs := [Effect.registryRead, Effect.catalogRead tn, Effect.catalogRead tn]
      match deleteVal db tn pk_column pk_val with
      | none =>
        ⟨.error ("invalid literal for int() with base 10: " ++ pk_val) 500,
          0, db, effs⟩
      | some val =>
        match findTable db tn with
        | none => ⟨.error "relation does not exist" 500, 0, db, effs⟩
        | some T =>
          ⟨.success "deleted",
            (T.rows.filter (fun r => lookupD r pk_column = some val)).length,
            removeRows db tn pk_column val,
            effs ++ [Effect.write tn [pk_column],
              Effect.write "phc_user_log_t" logCols]⟩
  else ⟨.error "Invalid table" 400, 0, db, [Effect.registryRead]⟩

/-- `show_table` (src/server.py lines 174-185): registry guard, then the
column labels, the primary key, and the first 100 rows ordered by the first
column descending, handed to the template. -/
def show_table (db : Database) (tn : String) : ReadOutcome :=
  if tn ∈ get_allowed_tables db then
    let cols := catalogColumns db tn
    let pk := catalogPk db tn
    let rows :=
      match findTable db tn, cols.head? with
      | some T, some c1 =>
        (sortByLe (fun a b =>
          strLe (Value.toStr ((lookupD b c1.column_name).getD .vNull))
            (Value.toStr ((lookupD a c1.column_name).getD .vNull))) T.rows).take 100
      | some T, none => T.rows.take 100
      | none, _ => []
    ⟨.page ⟨tn, make_human_readable tn,
        cols.map (fun c => (c.column_name, make_human_readable c.column_name)),
        rows, pk⟩,
      [Effect.registryRead, Effect.catalogRead tn, Effect.catalogRead tn,
        Effect.dataRead tn]⟩
  else ⟨.error "Invalid Table" 400, [Effect.registryRead]⟩

/-- `show_add_form` (src/server.py lines 187-205): registry guard, then the
form fields (primary key and audit-suffixed columns excluded, dropdown
options resolved for `_id`-suffixed columns). -/
def show_add_form (db : Database) (tn : String) : ReadOutcome :=
  if tn ∈ get_allowed_tables db then
    let pk := catalogPk db tn
    let cols := catalogColumns db tn
    let fields := (cols.filter (fun c =>
        !(pk = some c.column_name : Bool) && !auditSuffixed c.column_name)).map
      (fun c =>
        ({ column_name := c.column_name, data_type := c.data_type,
           label := make_human_readable c.column_name,
           required := c.is_nullable = "NO",
           options := if strEndsWith c.column_name "_id" then
               match get_dropdown_options db c.column_name with
               | some opts => some opts
               | none => none
             else none } : FormField))
    ⟨.form tn (make_human_readable tn) fields,
      [Effect.registryRead, Effect.catalogRead tn, Effect.catalogRead tn]⟩
  else ⟨.error "Invalid Table" 400, [Effect.registryRead]⟩

/-- Modelled from the spec: an `update` route is absent from src/server.py
(only list, table view, create-form, create and delete exist).  Per spec §6
and §4.5 (mode = update), the handler re-checks the registry first and
rejects an out-of-scope table with a client error before any further work,
requires a primary key, coerces with the same exclusion rules and no key or
audit injection, and issues one parameterized UPDATE constrained by key
equality. -/
def update_row (db : Database) (tn pk_val : String)
    (data : List (String × Value)) : WriteOutcome :=
  if tn ∈ get_allowed_tables db then
    match catalogPk db tn with
    | none =>
      ⟨.error "Table has no Primary Key" 400, db,
        [Effect.registryRead, Effect.catalogRead tn]⟩
    | some pk_column =>
      let effs := [Effect.registryRead, Effect.catalogRead tn, Effect.catalogRead tn]
      match buildClean (some pk_column) (catalogColumns db tn) [] data with
      | .error m => ⟨.error m 400, db, effs⟩
      | .ok cd =>
        if cd = [] then ⟨.error "No valid data provided" 400, db, effs⟩
        else
          match deleteVal db tn pk_column pk_val with
          | none =>
            ⟨.error ("invalid literal for int() with base 10: " ++ pk_val) 500,
              db, effs⟩
          | some val =>
            ⟨.success "success",
              ⟨db.tables.map (fun t => if t.name = tn then
                { t with rows := t.rows.map (fun r =>
                    if lookupD r pk_column = some val then
                      cd.foldl (fun r2 p => dictSet r2 p.1 p.2) r
                    else r) }
                else t)⟩,
              effs ++ [Effect.write tn (cd.map (fun p => p.1)),
                Effect.write "phc_user_log_t" logCols]⟩
  else ⟨.error "Invalid table" 400, db, [Effect.registryRead]⟩

/-- Modelled from the spec: an `export` route is absent from src/server.py.
Per spec §6, it re-checks the registry first and rejects an out-of-scope
table with a client error before any further work; on success it emits
tabular text with a header row of the column names and one line per record
(or the single record matching the optional key value). -/
def export_rows (db : Database) (tn : String) (key : Option String) :
    ReadOutcome :=
  if tn ∈ get_allowed_tables db then
    let cols := catalogColumns db tn
    let pk := catalogPk db tn
    let rows :=
      match findTable db tn with
      | some T =>
        match key, pk with
        | some kv, some pkc =>
          T.rows.filter (fun r => lookupD r pkc = some (Value.vStr kv))
        | _, _ => T.rows
      | none => []
    let header := String.intercalate "," (cols.map (fun c => c.column_name))
    let lines := rows.map (fun r => String.intercalate ","
      (cols.map (fun c => Value.toStr ((lookupD r c.column_name).getD Value.vNull))))
    ⟨.csv (String.intercalate "\n" (header :: lines)),
      [Effect.registryRead, Effect.catalogRead tn, Effect.catalogRead tn,
        Effect.dataRead tn]⟩
  else ⟨.error "Invalid table" 400, [Effect.registryRead]⟩

/-! ## Association-list lemmas -/

theorem lookupD_dictSet_self (d : List (String × Value)) (k : String) (v : Value) :
    lookupD (dictSet d k v) k = some v := by
  induction d with
  | nil => simp [dictSet, lookupD]
  | cons p rest ih =>
    obtain ⟨k0, v0⟩ := p
    by_cases h : k0 = k
    · simp [dictSet, h, lookupD]
    · simp [dictSet, h, lookupD, ih]

theorem lookupD_dictSet_ne (d : List (String × Value)) (k k' : String) (v : Value)
    (h : k' ≠ k) : lookupD (dictSet d k v) k' = lookupD d k' := by
  induction d with
  | nil => simp [dictSet, lookupD, Ne.symm h]
  | cons p rest ih =>
    obtain ⟨k0, v0⟩ := p
    by_cases h0 : k0 = k
    · subst h0
      simp [dictSet, lookupD, Ne.symm h]
    · simp only [dictSet, if_neg h0, lookupD]
      by_cases h1 : k0 = k'
      · simp [h1]
      · simp [h1, ih]

theorem mem_dictSet (d : List (String × Value)) (k : String) (v : Value)
    (p : String × Value) (h : p ∈ dictSet d k v) : p = (k, v) ∨ p ∈ d := by
  induction d with
  | nil => simpa [dictSet] using h
  | cons q rest ih =>
    obtain ⟨k0, v0⟩ := q
    by_cases h0 : k0 = k
    · simp only [dictSet, if_pos h0] at h
      rcases List.mem_cons.mp h with h1 | h1
      · exact Or.inl h1
      · exact Or.inr (List.mem_cons_of_mem _ h1)
    · simp only [dictSet, if_neg h0] at h
      rcases List.mem_cons.mp h with h1 | h1
      · exact Or.inr (by simp [h1])
      · rcases ih h1 with h2 | h2
        · exact Or.inl h2
        · exact Or.inr (List.mem_cons_of_mem _ h2)

theorem lookupD_mem (d : List (String × Value)) (k : String) (v : Value)
    (h : lookupD d k = some v) : (k, v) ∈ d := by
  induction d with
  | nil => simp [lookupD] at h
  | cons q rest ih =>
    obtain ⟨k0, v0⟩ := q
    by_cases h0 : k0 = k
    · simp only [lookupD, if_pos h0, Option.some.injEq] at h
      subst h0
      subst h
      exact List.mem_cons_self _ _
    · simp only [lookupD, if_neg h0] at h
      exact List.mem_cons_of_mem _ (ih h)

theorem lookupD_ne_nil (d : List (String × Value)) (k : String) (v : Value)
    (h : lookupD d k = some v) : d ≠ [] := by
  intro hd
  subst hd
  simp [lookupD] at h

/-! ## Audit-injection lemmas -/

theorem auditInject_nil (d : List (String × Value)) : auditInject [] d = d := rfl

theorem auditInject_cons (c : ColumnInfo) (cs : List ColumnInfo)
    (d : List (String × Value)) :
    auditInject (c :: cs) d =
      auditInject cs
        (if strEndsWith c.column_name "_created_by" || strEndsWith c.column_name "_modified_by"
         then dictSet d c.column_name (.vStr "System") else d) := by
  simp only [auditInject, List.foldl_cons]

theorem auditInject_lookup_not_by (k : String)
    (hk : (strEndsWith k "_created_by" || strEndsWith k "_modified_by") = false) :
    ∀ (schema : List ColumnInfo) (d : List (String × Value)),
      lookupD (auditInject schema d) k = lookupD d k := by
  intro schema
  induction schema with
  | nil => intro d; rfl
  | cons c cs ih =>
    intro d
    rw [auditInject_cons]
    by_cases hc : (strEndsWith c.column_name "_created_by"
        || strEndsWith c.column_name "_modified_by") = true
    · have hne : k ≠ c.column_name := by
        intro hkk
        rw [hkk, hc] at hk
        simp at hk
      rw [if_pos hc, ih, lookupD_dictSet_ne _ _ _ _ hne]
    · rw [if_neg hc, ih]

theorem auditInject_lookup_notmem (k : String) :
    ∀ (schema : List ColumnInfo) (d : List (String × Value)),
      (schema.any (fun c => c.column_name = k)) = false →
      lookupD (auditInject schema d) k = lookupD d k := by
  intro schema
  induction schema with
  | nil => intro d _; rfl
  | cons c cs ih =>
    intro d h
    simp only [List.any_cons, Bool.or_eq_false_iff] at h
    have hne : k ≠ c.column_name := by
      intro hh
      simp [hh] at h
    rw [auditInject_cons]
    by_cases hc : (strEndsWith c.column_name "_created_by"
        || strEndsWith c.column_name "_modified_by") = true
    · rw [if_pos hc, ih _ h.2, lookupD_dictSet_ne _ _ _ _ hne]
    · rw [if_neg hc, ih _ h.2]

theorem auditInject_lookup_by_mem (k : String)
    (hk : (strEndsWith k "_created_by" || strEndsWith k "_modified_by") = true) :
    ∀ (schema : List ColumnInfo) (d : List (String × Value)),
      (schema.any (fun c => c.column_name = k)) = true →
      lookupD (auditInject schema d) k = some (.vStr "System") := by
  intro schema
  induction schema with
  | nil => intro d h; simp at h
  | cons c cs ih =>
    intro d h
    rw [auditInject_cons]
    by_cases hc : c.column_name = k
    · subst hc
      rw [if_pos hk]
      by_cases h2 : (cs.any (fun cc => cc.column_name = c.column_name)) = true
      · exact ih _ h2
      · rw [auditInject_lookup_notmem _ _ _ (Bool.not_eq_true _ ▸ h2),
          lookupD_dictSet_self]
    · simp only [List.any_cons, decide_eq_true_eq, hc, false_or] at h
      have harms : (cs.any (fun cc => cc.column_name = k)) = true := by
        simpa using h
      by_cases hcb : (strEndsWith c.column_name "_created_by"
          || strEndsWith c.column_name "_modified_by") = true
      · rw [if_pos hcb]
        exact ih _ harms
      · rw [if_neg hcb]
        exact ih _ harms

theorem mem_auditInject (schema : List ColumnInfo) :
    ∀ (d : List (String × Value)) (p : String × Value),
      p ∈ auditInject schema d →
      (p.2 = Value.vStr "System"
        ∧ (strEndsWith p.1 "_created_by" || strEndsWith p.1 "_modified_by") = true)
      ∨ p ∈ d := by
  induction schema with
  | nil =>
    intro d p hp
    rw [auditInject_nil] at hp
    exact Or.inr hp
  | cons c cs ih =>
    intro d p hp
    rw [auditInject_cons] at hp
    by_cases hc : (strEndsWith c.column_name "_created_by"
        || strEndsWith c.column_name "_modified_by") = true
    · rw [if_pos hc] at hp
      rcases ih _ p hp with h1 | h1
      · exact Or.inl h1
      · rcases mem_dictSet _ _ _ _ h1 with h2 | h2
        · refine Or.inl ?_
          rw [h2]
          exact ⟨rfl, hc⟩
        · exact Or.inr h2
    · rw [if_neg hc] at hp
      exact ih _ p hp

/-! ## Coercion-loop lemmas -/

theorem coerceStep_shape (pk : Option String) (schema : List ColumnInfo)
    (acc : List (String × Value)) (k : String) (v : Value) :
    coerceStep pk schema acc k v = .ok acc
    ∨ ((∃ v', coerceStep pk schema acc k v = .ok (dictSet acc k v'))
        ∧ ¬ pk = some k ∧ auditSuffixed k = false)
    ∨ (∃ m, coerceStep pk schema acc k v = .error m) := by
  unfold coerceStep
  by_cases hskip : v = Value.vStr "" ∨ v = Value.vNull ∨ pk = some k
      ∨ auditSuffixed k
  · exact Or.inl (if_pos hskip)
  · have hpk : ¬ pk = some k := fun h => hskip (Or.inr (Or.inr (Or.inl h)))
    have haud : ¬ (auditSuffixed k = true) :=
      fun h => hskip (Or.inr (Or.inr (Or.inr h)))
    have haud' : auditSuffixed k = false := by
      simpa using haud
    rw [if_neg hskip]
    split
    · split
      · exact Or.inr (Or.inl ⟨⟨_, rfl⟩, hpk, haud'⟩)
      · exact Or.inr (Or.inr ⟨_, rfl⟩)
    · split
      · exact Or.inr (Or.inl ⟨⟨_, rfl⟩, hpk, haud'⟩)
      · exact Or.inr (Or.inl ⟨⟨_, rfl⟩, hpk, haud'⟩)
    · exact Or.inr (Or.inl ⟨⟨_, rfl⟩, hpk, haud'⟩)

theorem buildClean_nil (pk : Option String) (schema : List ColumnInfo)
    (acc : List (String × Value)) : buildClean pk schema acc [] = .ok acc := rfl

theorem buildClean_cons (pk : Option String) (schema : List ColumnInfo)
    (acc : List (String × Value)) (k : String) (v : Value)
    (rest : List (String × Value)) :
    buildClean pk schema acc ((k, v) :: rest) =
      match coerceStep pk schema acc k v with
      | .error m => .error m
      | .ok acc2 => buildClean pk schema acc2 rest := rfl

theorem buildClean_append (pk : Option String) (schema : List ColumnInfo)
    (ys : List (String × Value)) :
    ∀ (xs : List (String × Value)) (acc : List (String × Value)),
      buildClean pk schema acc (xs ++ ys) =
        match buildClean pk schema acc xs with
        | .error m => .error m
        | .ok a => buildClean pk schema a ys := by
  intro xs
  induction xs with
  | nil => intro acc; rfl
  | cons p rest ih =>
    intro acc
    obtain ⟨k, v⟩ := p
    rw [List.cons_append, buildClean_cons, buildClean_cons]
    cases coerceStep pk schema acc k v with
    | error m => rfl
    | ok acc2 => exact ih acc2

theorem buildClean_mem_invariant (pk : Option String) (schema : List ColumnInfo) :
    ∀ (data acc m : List (String × Value)),
      (∀ p ∈ acc, ¬ pk = some p.1 ∧ auditSuffixed p.1 = false) →
      buildClean pk schema acc data = .ok m →
      ∀ p ∈ m, ¬ pk = some p.1 ∧ auditSuffixed p.1 = false := by
  intro data
  induction data with
  | nil =>
    intro acc m hacc h
    rw [buildClean_nil] at h
    cases h
    exact hacc
  | cons q rest ih =>
    intro acc m hacc h
    obtain ⟨k, v⟩ := q
    rw [buildClean_cons] at h
    rcases coerceStep_shape pk schema acc k v with hs | ⟨⟨v', hs⟩, hpk, haud⟩ | ⟨msg, hs⟩
    · rw [hs] at h
      exact ih acc m hacc h
    · rw [hs] at h
      refine ih _ m ?_ h
      intro p hp
      rcases mem_dictSet _ _ _ _ hp with h1 | h1
      · rw [h1]
        exact ⟨hpk, haud⟩
      · exact hacc p h1
    · rw [hs] at h
      cases h

theorem buildClean_lookup_notin (pk : Option String) (schema : List ColumnInfo)
    (k : String) :
    ∀ (data acc m : List (String × Value)),
      (∀ p ∈ data, p.1 ≠ k) →
      buildClean pk schema acc data = .ok m →
      lookupD m k = lookupD acc k := by
  intro data
  induction data with
  | nil =>
    intro acc m _ h
    rw [buildClean_nil] at h
    cases h
    rfl
  | cons q rest ih =>
    intro acc m hdata h
    obtain ⟨k0, v0⟩ := q
    have hk0 : k0 ≠ k := hdata (k0, v0) (List.mem_cons_self _ _)
    have hrest : ∀ p ∈ rest, p.1 ≠ k :=
      fun p hp => hdata p (List.mem_cons_of_mem _ hp)
    rw [buildClean_cons] at h
    rcases coerceStep_shape pk schema acc k0 v0 with hs | ⟨⟨v', hs⟩, _, _⟩ | ⟨msg, hs⟩
    · rw [hs] at h
      exact ih acc m hrest h
    · rw [hs] at h
      rw [ih _ m hrest h, lookupD_dictSet_ne _ _ _ _ (Ne.symm hk0)]
    · rw [hs] at h
      cases h

/-! ## Catalog-preservation lemmas for the name-preserving table maps -/

theorem find?_name_map (f : Table → Table) (hf : ∀ t, (f t).name = t.name)
    (tn : String) :
    ∀ l : List Table,
      (l.map f).find? (fun t => t.name = tn) =
        (l.find? (fun t => t.name = tn)).map f := by
  intro l
  induction l with
  | nil => rfl
  | cons t rest ih =>
    by_cases h : t.name = tn
    · simp [List.find?_cons, hf, h]
    · simp [List.find?_cons, hf, h, ih]

theorem findTable_map (f : Table → Table) (hf : ∀ t, (f t).name = t.name)
    (db : Database) (tn : String) :
    findTable ⟨db.tables.map f⟩ tn = (findTable db tn).map f := by
  simpa [findTable] using find?_name_map f hf tn db.tables

theorem get_allowed_tables_map (f : Table → Table)
    (hf : ∀ t, (f t).name = t.name) (db : Database) :
    get_allowed_tables ⟨db.tables.map f⟩ = get_allowed_tables db := by
  show ((db.tables.map f).filter (fun t => strStartsWith t.name "phc_")).map
      (fun t => t.name) =
    (db.tables.filter (fun t => strStartsWith t.name "phc_")).map (fun t => t.name)
  induction db.tables with
  | nil => rfl
  | cons t rest ih =>
    by_cases h : strStartsWith t.name "phc_"
    · simp [List.filter_cons, hf, h, ih]
    · simp [List.filter_cons, hf, h, ih]

theorem catalogPk_map (f : Table → Table) (hf : ∀ t, (f t).name = t.name)
    (hp : ∀ t, (f t).pkCols = t.pkCols) (db : Database) (tn : String) :
    catalogPk ⟨db.tables.map f⟩ tn = catalogPk db tn := by
  unfold catalogPk
  rw [findTable_map f hf]
  cases findTable db tn with
  | none => rfl
  | some t => simp [hp]

theorem catalogColumns_map (f : Table → Table) (hf : ∀ t, (f t).name = t.name)
    (hc : ∀ t, (f t).columns = t.columns) (db : Database) (tn : String) :
    catalogColumns ⟨db.tables.map f⟩ tn = catalogColumns db tn := by
  unfold catalogColumns
  rw [findTable_map f hf]
  cases findTable db tn with
  | none => rfl
  | some t => simp [hc]

theorem findTable_name (db : Database) (tn : String) (t : Table)
    (h : findTable db tn = some t) : t.name = tn := by
  have := List.find?_some h
  simpa using this

/-- The row-append map of `appendRow` preserves every catalog component. -/
theorem appendRow_fun_spec (tn : String) (r : Row) :
    ∀ t : Table,
      ((if t.name = tn then { t with rows := t.rows ++ [r] } else t).name = t.name)
      ∧ ((if t.name = tn then { t with rows := t.rows ++ [r] } else t).pkCols = t.pkCols)
      ∧ ((if t.name = tn then { t with rows := t.rows ++ [r] } else t).columns = t.columns) := by
  intro t
  by_cases h : t.name = tn <;> simp [h]

theorem catalogPk_appendRow (db : Database) (tn tn' : String) (r : Row) :
    catalogPk (appendRow db tn r) tn' = catalogPk db tn' :=
  catalogPk_map _ (fun t => (appendRow_fun_spec tn r t).1)
    (fun t => (appendRow_fun_spec tn r t).2.1) db tn'

theorem catalogColumns_appendRow (db : Database) (tn tn' : String) (r : Row) :
    catalogColumns (appendRow db tn r) tn' = catalogColumns db tn' :=
  catalogColumns_map _ (fun t => (appendRow_fun_spec tn r t).1)
    (fun t => (appendRow_fun_spec tn r t).2.2) db tn'

theorem get_allowed_tables_appendRow (db : Database) (tn : String) (r : Row) :
    get_allowed_tables (appendRow db tn r) = get_allowed_tables db :=
  get_allowed_tables_map _ (fun t => (appendRow_fun_spec tn r t).1) db

theorem rowsOf_appendRow (db : Database) (tn : String) (r : Row) :
    rowsOf (appendRow db tn r) tn = (rowsOf db tn).map (fun rs => rs ++ [r]) := by
  unfold rowsOf
  rw [show (appendRow db tn r) = ⟨db.tables.map (fun t => if t.name = tn then { t with rows := t.rows ++ [r] } else t)⟩ from rfl,
    findTable_map _ (fun t => (appendRow_fun_spec tn r t).1)]
  cases hft : findTable db tn with
  | none => rfl
  | some t =>
    have hn : t.name = tn := findTable_name db tn t hft
    simp [hn]

/-! ## Generic list helpers -/

theorem find?_split {α : Type} (p : α → Bool) :
    ∀ (l : List α) (a : α), l.find? p = some a →
      p a = true ∧ ∃ l1 l2, l = l1 ++ a :: l2 ∧ ∀ x ∈ l1, p x = false := by
  intro l
  induction l with
  | nil => intro a h; simp at h
  | cons x xs ih =>
    intro a h
    by_cases hx : p x = true
    · rw [List.find?_cons_of_pos _ hx] at h
      cases h
      exact ⟨hx, [], xs, rfl, by simp⟩
    · have hx' : p x = false := by simpa using hx
      rw [List.find?_cons_of_neg _ (by simp [hx'])] at h
      obtain ⟨hpa, l1, l2, hsplit, hl1⟩ := ih a h
      refine ⟨hpa, x :: l1, l2, by simp [hsplit], ?_⟩
      intro y hy
      rcases List.mem_cons.mp hy with h1 | h1
      · rw [h1]; exact hx'
      · exact hl1 y h1

theorem filter_not_filter {α : Type} (p : α → Bool) :
    ∀ l : List α, (l.filter (fun x => !p x)).filter p = [] := by
  intro l
  induction l with
  | nil => rfl
  | cons x xs ih =>
    by_cases h : p x = true
    · simp [List.filter_cons, h, ih]
    · have h' : p x = false := by simpa using h
      simp [List.filter_cons, h', ih]

theorem filter_eq_self_of_all {α : Type} (p : α → Bool) :
    ∀ l : List α, (∀ x ∈ l, p x = true) → l.filter p = l := by
  intro l
  induction l with
  | nil => intro _; rfl
  | cons x xs ih =>
    intro h
    rw [List.filter_cons, if_pos (h x (List.mem_cons_self _ _)),
      ih (fun y hy => h y (List.mem_cons_of_mem _ hy))]

theorem map_eq_self_of_all {α : Type} (f : α → α) :
    ∀ l : List α, (∀ x ∈ l, f x = x) → l.map f = l := by
  intro l
  induction l with
  | nil => intro _; rfl
  | cons x xs ih =>
    intro h
    rw [List.map_cons, h x (List.mem_cons_self _ _),
      ih (fun y hy => h y (List.mem_cons_of_mem _ hy))]

theorem isPrefixOf_self (l : List Char) : l.isPrefixOf l = true := by
  induction l with
  | nil => rfl
  | cons c rest ih => simp [List.isPrefixOf, ih]

theorem charsInfix_append (xs : List Char) :
    ∀ pre : List Char, charsInfix xs (pre ++ xs) = true := by
  intro pre
  induction pre with
  | nil =>
    cases xs with
    | nil => rfl
    | cons c rest => simp [charsInfix, isPrefixOf_self]
  | cons c cs ih => simp [charsInfix, ih]

/-- The row-filter map of `removeRows` preserves every catalog component. -/
theorem removeRows_fun_spec (tn pk : String) (val : Value) :
    ∀ t : Table,
      ((if t.name = tn then
          { t with rows := t.rows.filter (fun r => !(lookupD r pk = some val : Bool)) }
        else t).name = t.name)
      ∧ ((if t.name = tn then
          { t with rows := t.rows.filter (fun r => !(lookupD r pk = some val : Bool)) }
        else t).pkCols = t.pkCols)
      ∧ ((if t.name = tn then
          { t with rows := t.rows.filter (fun r => !(lookupD r pk = some val : Bool)) }
        else t).columns = t.columns) := by
  intro t
  by_cases h : t.name = tn <;> simp [h]

theorem catalogPk_removeRows (db : Database) (tn tn' pk : String) (val : Value) :
    catalogPk (removeRows db tn pk val) tn' = catalogPk db tn' :=
  catalogPk_map _ (fun t => (removeRows_fun_spec tn pk val t).1)
    (fun t => (removeRows_fun_spec tn pk val t).2.1) db tn'

theorem catalogColumns_removeRows (db : Database) (tn tn' pk : String) (val : Value) :
    catalogColumns (removeRows db tn pk val) tn' = catalogColumns db tn' :=
  catalogColumns_map _ (fun t => (removeRows_fun_spec tn pk val t).1)
    (fun t => (removeRows_fun_spec tn pk val t).2.2) db tn'

theorem get_allowed_tables_removeRows (db : Database) (tn pk : String) (val : Value) :
    get_allowed_tables (removeRows db tn pk val) = get_allowed_tables db :=
  get_allowed_tables_map _ (fun t => (removeRows_fun_spec tn pk val t).1) db

theorem findTable_removeRows (db : Database) (tn pk : String) (val : Value)
    (T : Table) (h : findTable db tn = some T) :
    findTable (removeRows db tn pk val) tn =
      some { T with rows := T.rows.filter (fun r => !(lookupD r pk = some val : Bool)) } := by
  rw [show (removeRows db tn pk val) = ⟨db.tables.map (fun t => if t.name = tn then { t with rows := t.rows.filter (fun r => !(lookupD r pk = some val : Bool)) } else t)⟩ from rfl,
    findTable_map _ (fun t => (removeRows_fun_spec tn pk val t).1), h]
  have hn : T.name = tn := findTable_name db tn T h
  simp [hn]

/-! ## The cleaned-map pipeline, decomposed -/

theorem buildCleanFull_parts (db : Database) (tn : String)
    (data m : List (String × Value)) (h : buildCleanFull db tn data = .ok m) :
    ∃ cd, buildClean (catalogPk db tn) (catalogColumns db tn) [] data = .ok cd
      ∧ m = auditInject (catalogColumns db tn)
          (match catalogPk db tn with
           | some p => dictSet cd p (.vInt (nextIdVal db tn p))
           | none => cd) := by
  have h' : (match buildClean (catalogPk db tn) (catalogColumns db tn) [] data with
      | Except.error msg => Except.error msg
      | Except.ok cd =>
        Except.ok (auditInject (catalogColumns db tn)
          (match catalogPk db tn with
           | some p => dictSet cd p (Value.vInt (nextIdVal db tn p))
           | none => cd))) = Except.ok m := h
  cases hbc : buildClean (catalogPk db tn) (catalogColumns db tn) [] data with
  | error msg => rw [hbc] at h'; cases h'
  | ok cd =>
    rw [hbc] at h'
    cases h'
    exact ⟨cd, rfl, rfl⟩

theorem buildCleanFull_error (db : Database) (tn : String)
    (data : List (String × Value)) (msg : String)
    (h : buildClean (catalogPk db tn) (catalogColumns db tn) [] data = .error msg) :
    buildCleanFull db tn data = .error msg := by
  show (match buildClean (catalogPk db tn) (catalogColumns db tn) [] data with
      | Except.error msg => Except.error msg
      | Except.ok cd =>
        Except.ok (auditInject (catalogColumns db tn)
          (match catalogPk db tn with
           | some p => dictSet cd p (Value.vInt (nextIdVal db tn p))
           | none => cd))) = Except.error msg
  rw [h]

/-- The value of the cleaned map at the primary-key column is a function of
the database state alone: the fresh `max+1` key, overridden by the fixed
actor marker in the degenerate case of a key column that is itself an
audit-actor column of the schema. -/
theorem buildCleanFull_lookup_pk (db : Database) (tn : String)
    (data m : List (String × Value)) (pk : String)
    (hpk : catalogPk db tn = some pk) (h : buildCleanFull db tn data = .ok m) :
    lookupD m pk =
      (if ((strEndsWith pk "_created_by" || strEndsWith pk "_modified_by")
            && (catalogColumns db tn).any (fun c => c.column_name = pk)) = true
       then some (.vStr "System")
       else some (.vInt (nextIdVal db tn pk))) := by
  obtain ⟨cd, hcd, hm⟩ := buildCleanFull_parts db tn data m h
  rw [hpk] at hm
  subst hm
  by_cases hb : (strEndsWith pk "_created_by" || strEndsWith pk "_modified_by") = true
  · by_cases hmem : ((catalogColumns db tn).any (fun c => c.column_name = pk)) = true
    · rw [auditInject_lookup_by_mem pk hb _ _ hmem, if_pos (by simp [hb, hmem])]
    · have hmem' : ((catalogColumns db tn).any (fun c => c.column_name = pk)) = false := by
        simpa using hmem
      rw [auditInject_lookup_notmem _ _ _ hmem', lookupD_dictSet_self,
        if_neg (by simp [hmem'])]
  · have hb' : (strEndsWith pk "_created_by" || strEndsWith pk "_modified_by") = false := by
      simpa using hb
    rw [auditInject_lookup_not_by pk hb', lookupD_dictSet_self,
      if_neg (by simp [hb'])]

/-! ## Concrete catalog state used by the witnesses and counterexamples -/

/-- A small concrete database: an empty items table (integer key, text, date
and integer columns plus audit columns), an organisations table whose column
order puts a `code`-matching column before the `name`-matching one, a
departments table whose name is a pluralization candidate of the `dept`
override entity, and a table without a primary key. -/
def dbW : Database := ⟨[
  ⟨"phc_items_t",
    [⟨"pit_item_id", "integer", "NO"⟩, ⟨"pit_name", "text", "YES"⟩,
     ⟨"pit_start_date", "date", "YES"⟩, ⟨"pit_qty", "integer", "YES"⟩,
     ⟨"pit_created", "timestamp without time zone", "YES"⟩,
     ⟨"pit_created_by", "text", "YES"⟩, ⟨"pit_modified_by", "text", "YES"⟩],
    ["pit_item_id"], []⟩,
  ⟨"phc_orgs_t",
    [⟨"por_org_id", "integer", "NO"⟩, ⟨"por_code", "text", "YES"⟩,
     ⟨"por_name", "text", "YES"⟩],
    ["por_org_id"],
    [[("por_org_id", Value.vInt 1), ("por_code", Value.vStr "C1"),
      ("por_name", Value.vStr "N1")]]⟩,
  ⟨"phc_depts_t",
    [⟨"pde_dept_id", "integer", "NO"⟩, ⟨"pde_name", "text", "YES"⟩],
    ["pde_dept_id"],
    [[("pde_dept_id", Value.vInt 1), ("pde_name", Value.vStr "HR")]]⟩,
  ⟨"phc_nopk_t", [⟨"pnk_text", "text", "YES"⟩], [],
    [[("pnk_text", Value.vStr "x")]]⟩]⟩

/-! ## Claim C1 — the registry is the authorization boundary -/

/-- C1: for every exposed operation that takes a table name (table view,
create-form schema, create, update, delete, export), a table name outside
the registry's result set is rejected with a client-error-class outcome
(status 400) before any further work: the effect trace holds only the
registry read itself — no catalog read of the table, no data read, no
write — and the database is unchanged.  The update and export handlers are
modelled from the spec (no such routes exist in src/server.py); the other
four are embedded from the source. -/
theorem c1_scope_guard (db : Database) (tn : String)
    (h : tn ∉ get_allowed_tables db) :
    (∀ data, create_row db tn data =
      ⟨.error "Invalid table" 400, db, [Effect.registryRead]⟩) ∧
    (∀ pv, delete_row db tn pv =
      ⟨.error "Invalid table" 400, 0, db, [Effect.registryRead]⟩) ∧
    show_table db tn = ⟨.error "Invalid Table" 400, [Effect.registryRead]⟩ ∧
    show_add_form db tn = ⟨.error "Invalid Table" 400, [Effect.registryRead]⟩ ∧
    (∀ pv data, update_row db tn pv data =
      ⟨.error "Invalid table" 400, db, [Effect.registryRead]⟩) ∧
    (∀ key, export_rows db tn key =
      ⟨.error "Invalid table" 400, [Effect.registryRead]⟩) := by
  refine ⟨?_, ?_, ?_, ?_, ?_, ?_⟩ <;> intros <;>
    simp [create_row, delete_row, show_table, show_add_form, update_row,
      export_rows, h]

/-- Witness for C1 at a concrete out-of-scope table name. -/
theorem c1_scope_guard_witness :
    create_row ⟨[]⟩ "phc_x_t" [] =
      ⟨.error "Invalid table" 400, ⟨[]⟩, [Effect.registryRead]⟩ ∧
    delete_row ⟨[]⟩ "phc_x_t" "1" =
      ⟨.error "Invalid table" 400, 0, ⟨[]⟩, [Effect.registryRead]⟩ ∧
    show_table ⟨[]⟩ "phc_x_t" =
      ⟨.error "Invalid Table" 400, [Effect.registryRead]⟩ ∧
    show_add_form ⟨[]⟩ "phc_x_t" =
      ⟨.error "Invalid Table" 400, [Effect.registryRead]⟩ ∧
    update_row ⟨[]⟩ "phc_x_t" "1" [] =
      ⟨.error "Invalid table" 400, ⟨[]⟩, [Effect.registryRead]⟩ ∧
    export_rows ⟨[]⟩ "phc_x_t" none =
      ⟨.error "Invalid table" 400, [Effect.registryRead]⟩ := by
  have h := c1_scope_guard ⟨[]⟩ "phc_x_t" (by decide)
  exact ⟨h.1 [], h.2.1 "1", h.2.2.1, h.2.2.2.1, h.2.2.2.2.1 "1" [],
    h.2.2.2.2.2 none⟩

/-! ## Claim C2 — primary-key and audit columns are never client-writable -/

/-- C2: the cleaned field map submitted to the write never carries a
client-supplied value for the primary key column or for audit-suffixed
columns.  (1) The coercion loop drops the primary-key field and every
audit-suffixed field from the client payload unconditionally.  (2) Any
audit-suffixed binding of the final cleaned map carries the fixed system
actor marker, or is the system-assigned key column itself.  (3) The value at
the primary-key column is identical for any two client payloads — a
client-chosen primary key value cannot change the system-assigned key — and
is always present. -/
theorem c2_protected_columns :
    (∀ (pk : Option String) (schema : List ColumnInfo)
        (data cd : List (String × Value)),
      buildClean pk schema [] data = .ok cd →
      ∀ p ∈ cd, ¬ pk = some p.1 ∧ auditSuffixed p.1 = false) ∧
    (∀ (db : Database) (tn : String) (data m : List (String × Value)),
      buildCleanFull db tn data = .ok m →
      ∀ p ∈ m, auditSuffixed p.1 = true →
        p.2 = Value.vStr "System" ∨ catalogPk db tn = some p.1) ∧
    (∀ (db : Database) (tn : String) (data data' m m' : List (String × Value))
        (pk : String),
      buildCleanFull db tn data = .ok m →
      buildCleanFull db tn data' = .ok m' →
      catalogPk db tn = some pk →
      lookupD m pk = lookupD m' pk ∧ (lookupD m pk).isSome = true) := by
  refine ⟨?_, ?_, ?_⟩
  · intro pk schema data cd hcd
    exact buildClean_mem_invariant pk schema data [] cd (by simp) hcd
  · intro db tn data m h p hp haud
    obtain ⟨cd, hcd, hm⟩ := buildCleanFull_parts db tn data m h
    subst hm
    rcases mem_auditInject _ _ p hp with ⟨hval, _⟩ | hpcd
    · exact Or.inl hval
    · have hcdinv := buildClean_mem_invariant _ _ data [] cd (by simp) hcd
      cases hpk : catalogPk db tn with
      | none =>
        rw [hpk] at hpcd
        have := (hcdinv p hpcd).2
        rw [this] at haud
        cases haud
      | some pkc =>
        rw [hpk] at hpcd
        rcases mem_dictSet _ _ _ _ hpcd with h1 | h1
        · exact Or.inr (by rw [h1])
        · have := (hcdinv p h1).2
          rw [this] at haud
          cases haud
  · intro db tn data data' m m' pk h h' hpk
    rw [buildCleanFull_lookup_pk db tn data m pk hpk h,
      buildCleanFull_lookup_pk db tn data' m' pk hpk h']
    constructor
    · rfl
    · split <;> rfl

/-- Witness for C2: a payload that tries to set the key to 999 and a payload
that does not produce the same system-assigned key, which is present. -/
theorem c2_protected_columns_witness :
    lookupD [("pit_name", Value.vStr "A"), ("pit_item_id", Value.vInt 1),
        ("pit_created_by", Value.vStr "System"),
        ("pit_modified_by", Value.vStr "System")] "pit_item_id" =
      lookupD [("pit_name", Value.vStr "B"), ("pit_item_id", Value.vInt 1),
        ("pit_created_by", Value.vStr "System"),
        ("pit_modified_by", Value.vStr "System")] "pit_item_id" ∧
    (lookupD [("pit_name", Value.vStr "A"), ("pit_item_id", Value.vInt 1),
        ("pit_created_by", Value.vStr "System"),
        ("pit_modified_by", Value.vStr "System")] "pit_item_id").isSome = true := by
  exact (c2_protected_columns.2.2 dbW "phc_items_t"
    [("pit_item_id", Value.vInt 999), ("pit_name", Value.vStr "A")]
    [("pit_name", Value.vStr "B")]
    [("pit_name", Value.vStr "A"), ("pit_item_id", Value.vInt 1),
      ("pit_created_by", Value.vStr "System"),
      ("pit_modified_by", Value.vStr "System")]
    [("pit_name", Value.vStr "B"), ("pit_item_id", Value.vInt 1),
      ("pit_created_by", Value.vStr "System"),
      ("pit_modified_by", Value.vStr "System")]
    "pit_item_id" (by rfl) (by rfl) (by decide))

/-! ## Claim C3 — `max+1` key assignment -/

/-- C3: on create, with a primary key column present, the injected key is
`(max existing key value) + 1`, defaulting to 1 for an empty table; hence,
with no concurrent writer, the first row created in an empty table gets
key 1 and the second row key 2.  (The degenerate case of a key column that
is itself an audit-actor column is excluded, since there the audit injection
overwrites the key — see `c2_protected_columns`.) -/
theorem c3_next_id :
    (∀ (db : Database) (tn pk : String),
      (maxPk db tn pk = none → nextIdVal db tn pk = 1) ∧
      (∀ mv, maxPk db tn pk = some mv → nextIdVal db tn pk = mv + 1)) ∧
    (∀ (db : Database) (tn : String) (data m : List (String × Value)) (pk : String),
      catalogPk db tn = some pk →
      (strEndsWith pk "_created_by" || strEndsWith pk "_modified_by") = false →
      buildCleanFull db tn data = .ok m →
      lookupD m pk = some (Value.vInt (nextIdVal db tn pk))) ∧
    (∀ (db : Database) (tn : String) (d1 d2 m1 m2 : List (String × Value))
        (pk : String),
      tn ∈ get_allowed_tables db →
      catalogPk db tn = some pk →
      (strEndsWith pk "_created_by" || strEndsWith pk "_modified_by") = false →
      rowsOf db tn = some [] →
      buildCleanFull db tn d1 = .ok m1 →
      buildCleanFull (appendRow db tn m1) tn d2 = .ok m2 →
      lookupD m1 pk = some (Value.vInt 1) ∧
      (create_row db tn d1).db = appendRow db tn m1 ∧
      lookupD m2 pk = some (Value.vInt 2)) := by
  have hlook : ∀ (db : Database) (tn : String) (data m : List (String × Value))
      (pk : String), catalogPk db tn = some pk →
      (strEndsWith pk "_created_by" || strEndsWith pk "_modified_by") = false →
      buildCleanFull db tn data = .ok m →
      lookupD m pk = some (Value.vInt (nextIdVal db tn pk)) := by
    intro db tn data m pk hpk hb h
    rw [buildCleanFull_lookup_pk db tn data m pk hpk h, if_neg (by simp [hb])]
  refine ⟨?_, hlook, ?_⟩
  · intro db tn pk
    constructor
    · intro h
      simp [nextIdVal, h]
    · intro mv h
      simp [nextIdVal, h]
  · intro db tn d1 d2 m1 m2 pk hmem hpk hb hrows h1 h2
    have hnext1 : nextIdVal db tn pk = 1 := by
      simp [nextIdVal, maxPk, hrows]
    have hl1 : lookupD m1 pk = some (Value.vInt 1) := by
      rw [hlook db tn d1 m1 pk hpk hb h1, hnext1]
    refine ⟨hl1, ?_, ?_⟩
    · have hne : m1 ≠ [] := lookupD_ne_nil m1 pk _ hl1
      simp [create_row, hmem, h1, hne]
    · have hcat1 : catalogPk (appendRow db tn m1) tn = some pk := by
        rw [catalogPk_appendRow]; exact hpk
      have hrows1 : rowsOf (appendRow db tn m1) tn = some [m1] := by
        rw [rowsOf_appendRow, hrows]
        rfl
      have hnext2 : nextIdVal (appendRow db tn m1) tn pk = 2 := by
        simp [nextIdVal, maxPk, hrows1, hl1, List.max?]
      rw [hlook (appendRow db tn m1) tn d2 m2 pk hcat1 hb h2, hnext2]

/-- Witness for C3: two successive creates into the empty concrete items
table assign keys 1 and 2. -/
theorem c3_next_id_witness :
    lookupD [("pit_name", Value.vStr "A"), ("pit_item_id", Value.vInt 1),
        ("pit_created_by", Value.vStr "System"),
        ("pit_modified_by", Value.vStr "System")] "pit_item_id" =
      some (Value.vInt 1) ∧
    (create_row dbW "phc_items_t" [("pit_name", Value.vStr "A")]).db =
      appendRow dbW "phc_items_t"
        [("pit_name", Value.vStr "A"), ("pit_item_id", Value.vInt 1),
          ("pit_created_by", Value.vStr "System"),
          ("pit_modified_by", Value.vStr "System")] ∧
    lookupD [("pit_name", Value.vStr "B"), ("pit_item_id", Value.vInt 2),
        ("pit_created_by", Value.vStr "System"),
        ("pit_modified_by", Value.vStr "System")] "pit_item_id" =
      some (Value.vInt 2) :=
  c3_next_id.2.2 dbW "phc_items_t" [("pit_name", Value.vStr "A")]
    [("pit_name", Value.vStr "B")]
    [("pit_name", Value.vStr "A"), ("pit_item_id", Value.vInt 1),
      ("pit_created_by", Value.vStr "System"),
      ("pit_modified_by", Value.vStr "System")]
    [("pit_name", Value.vStr "B"), ("pit_item_id", Value.vInt 2),
      ("pit_created_by", Value.vStr "System"),
      ("pit_modified_by", Value.vStr "System")]
    "pit_item_id" (by decide) (by decide) (by decide) (by rfl) (by rfl) (by rfl)

/-! ## Claim C4 — hard rejection of unparseable dates -/

/-- C4 (amended): for every write whose raw field map contains a textual
value for a date-typed column that does not parse as a `YYYY-MM-DD` calendar
date (with the fields before it coercing successfully, so it is the first
failure the loop meets), the entire write is rejected with a client-error
400: no row is written, the database is unchanged, the effect trace holds no
write — the other fields of the payload, before or after the bad one, are
rejected with it rather than any field being silently dropped — and the
error message identifies the offending raw value
(`"Invalid date: " ++ value`); it does not name the offending field. -/
theorem c4_date_rejection (db : Database) (tn k s : String)
    (d1 d2 : List (String × Value))
    (hmem : tn ∈ get_allowed_tables db)
    (hs : s ≠ "")
    (hpk : ¬ catalogPk db tn = some k)
    (haud : auditSuffixed k = false)
    (hty : schemaType db tn k = some "date")
    (hp : parseDateYMD s = none)
    (hpre : ∃ a1, buildClean (catalogPk db tn) (catalogColumns db tn) [] d1 =
      .ok a1) :
    create_row db tn (d1 ++ (k, Value.vStr s) :: d2) =
      ⟨.error ("Invalid date: " ++ s) 400, db,
        [Effect.registryRead, Effect.catalogRead tn, Effect.catalogRead tn]⟩ ∧
    strContains ("Invalid date: " ++ s) s = true := by
  obtain ⟨a1, ha1⟩ := hpre
  have hcond : ¬(Value.vStr s = Value.vStr "" ∨ Value.vStr s = Value.vNull
      ∨ catalogPk db tn = some k ∨ auditSuffixed k) := by
    intro h
    rcases h with h | h | h | h
    · exact hs (by injection h)
    · cases h
    · exact hpk h
    · rw [haud] at h
      cases h
  have hstep : coerceStep (catalogPk db tn) (catalogColumns db tn) a1 k
      (Value.vStr s) = .error ("Invalid date: " ++ s) := by
    unfold coerceStep
    rw [if_neg hcond]
    unfold schemaType at hty
    rw [hty]
    show (match parseDateYMD s with
      | some (y, m, d) => Except.ok (dictSet a1 k (Value.vDate y m d))
      | none => Except.error ("Invalid date: " ++ s)) =
        Except.error ("Invalid date: " ++ s)
    rw [hp]
  have hbc : buildClean (catalogPk db tn) (catalogColumns db tn) []
      (d1 ++ (k, Value.vStr s) :: d2) = .error ("Invalid date: " ++ s) := by
    rw [buildClean_append _ _ _ d1 [], ha1]
    show buildClean (catalogPk db tn) (catalogColumns db tn) a1
      ((k, Value.vStr s) :: d2) = Except.error ("Invalid date: " ++ s)
    rw [buildClean_cons, hstep]
  have hfull := buildCleanFull_error db tn (d1 ++ (k, Value.vStr s) :: d2) _ hbc
  constructor
  · simp [create_row, hmem, hfull]
  · show charsInfix s.toList (("Invalid date: " ++ s).toList) = true
    exact charsInfix_append s.toList "Invalid date: ".toList

/-- Witness for C4 at a concrete bad date inside a multi-field payload: the
valid `pit_name` field before it and the valid `pit_qty` field after it are
rejected with the whole write, not written or dropped. -/
theorem c4_date_rejection_witness :
    create_row dbW "phc_items_t"
        ([("pit_name", Value.vStr "A")] ++
          ("pit_start_date", Value.vStr "2024-13-05") ::
            [("pit_qty", Value.vStr "7")]) =
      ⟨.error ("Invalid date: " ++ "2024-13-05") 400, dbW,
        [Effect.registryRead, Effect.catalogRead "phc_items_t",
          Effect.catalogRead "phc_items_t"]⟩ ∧
    strContains ("Invalid date: " ++ "2024-13-05") "2024-13-05" = true :=
  c4_date_rejection dbW "phc_items_t" "pit_start_date" "2024-13-05"
    [("pit_name", Value.vStr "A")] [("pit_qty", Value.vStr "7")]
    (by decide) (by decide) (by decide) (by decide) (by decide) (by decide)
    ⟨[("pit_name", Value.vStr "A")], by rfl⟩

/-- Counterexample for C4 as stated: the rejection happens and carries the
raw value, but the error does not identify the offending field — the field
name does not occur anywhere in the message. -/
theorem c4_counterexample :
    (create_row dbW "phc_items_t"
        [("pit_start_date", Value.vStr "2024-02-30")]).result =
      .error "Invalid date: 2024-02-30" 400 ∧
    strContains "Invalid date: 2024-02-30" "pit_start_date" = false ∧
    strContains "Invalid date: 2024-02-30" "2024-02-30" = true := by
  exact ⟨by rfl, by rfl, by rfl⟩

/-! ## Claim C5 — display-column selection -/

/-- C5 (amended): the display column of a lookup target is the **first
column in the target's column order** whose name contains any of the four
substrings `name`, `title`, `code`, `desc` (so a `code`-matching column that
precedes a `name`-matching one wins; there is no substring-priority order,
and `description` matches only through its `desc` prefix while `detail` is
not a tested substring at all); when no column matches, the key column
itself is used. -/
theorem c5_display_column (cols : List String) (pk : Option String) :
    (∀ c, label_col_code cols pk = some c →
      (matchesAny c = true
        ∧ ∃ l1 l2, cols = l1 ++ c :: l2 ∧ ∀ x ∈ l1, matchesAny x = false)
      ∨ (pk = some c ∧ ∀ x ∈ cols, matchesAny x = false)) ∧
    ((∀ x ∈ cols, matchesAny x = false) → label_col_code cols pk = pk) := by
  constructor
  · intro c hc
    unfold label_col_code at hc
    cases hf : cols.find? matchesAny with
    | some c0 =>
      rw [hf] at hc
      have hc0 : c0 = c := by injection hc
      subst hc0
      obtain ⟨hpa, l1, l2, hsplit, hl1⟩ := find?_split matchesAny cols c0 hf
      exact Or.inl ⟨hpa, l1, l2, hsplit, hl1⟩
    | none =>
      rw [hf] at hc
      refine Or.inr ⟨hc, ?_⟩
      intro x hx
      have := List.find?_eq_none.mp hf x hx
      simpa using this
  · intro hall
    unfold label_col_code
    have hf : cols.find? matchesAny = none :=
      List.find?_eq_none.mpr (fun x hx => by simp [hall x hx])
    rw [hf]

/-- Witness for C5 (amended): the `code` column wins by column order in the
concrete organisations schema, and a `detail`-only column falls back to the
key column. -/
theorem c5_display_column_witness :
    ((matchesAny "por_code" = true
        ∧ ∃ l1 l2, ["por_org_id", "por_code", "por_name"] = l1 ++ "por_code" :: l2
            ∧ ∀ x ∈ l1, matchesAny x = false)
      ∨ ((some "por_org_id" : Option String) = some "por_code"
          ∧ ∀ x ∈ ["por_org_id", "por_code", "por_name"], matchesAny x = false)) ∧
    label_col_code ["x_detail"] (some "x_id") = some "x_id" := by
  constructor
  · exact (c5_display_column ["por_org_id", "por_code", "por_name"]
      (some "por_org_id")).1 "por_code" (by decide)
  · exact (c5_display_column ["x_detail"] (some "x_id")).2 (by decide)

/-- Counterexample for C5 as stated: in a target whose column order is
`[por_org_id, por_code, por_name]`, the source selects `por_code` (first
match in column order) while the claimed substring-priority order would
select `por_name`; the rendered dropdown label is the code value, not the
name value.  A column matching only `detail` is not selected at all. -/
theorem c5_counterexample :
    label_col_code ["por_org_id", "por_code", "por_name"] (some "por_org_id") =
      some "por_code" ∧
    display_column_spec ["por_org_id", "por_code", "por_name"]
      (some "por_org_id") = some "por_name" ∧
    ¬ (some "por_code" = (some "por_name" : Option String)) ∧
    get_dropdown_options dbW "pxx_org_id" =
      some [{ id := Value.vInt 1, name := "C1" }] ∧
    label_col_code ["x_detail"] (some "x_id") = some "x_id" ∧
    display_column_spec ["x_detail"] (some "x_id") = some "x_detail" := by
  refine ⟨by rfl, by rfl, by decide, by rfl, by rfl, by rfl⟩

/-! ## Claim C6 — manual override resolution -/

/-- C6 (amended): when the entity derived from the foreign-key column has an
entry in the manual override map, resolution uses the override target
unconditionally — the result depends only on the override target's catalog
entry, so pluralization candidates are never consulted even when they exist —
and when the override target table does not exist, resolution degrades to no
options (`none`) rather than falling back to pluralization. -/
theorem c6_override (db db' : Database) (fk tgt : String)
    (h : manual_map (fk_entity fk) = some tgt) :
    (findTable db tgt = findTable db' tgt →
      get_dropdown_options db fk = get_dropdown_options db' fk) ∧
    (findTable db tgt = none → get_dropdown_options db fk = none) := by
  constructor
  · intro hft
    simp only [get_dropdown_options, h, catalogColumns, hft]
  · intro hnone
    simp only [get_dropdown_options, h, catalogColumns, hnone]
    simp [label_col_code]

/-- Witness for C6: the `dept` override points at `phc_dept_t`, which is
absent from the concrete catalog; resolution yields no options and agrees
with the resolution over an empty catalog, even though the pluralization
candidate `phc_depts_t` exists with key, label and rows. -/
theorem c6_override_witness :
    get_dropdown_options dbW "pxx_dept_id" =
      get_dropdown_options ⟨[]⟩ "pxx_dept_id" ∧
    get_dropdown_options dbW "pxx_dept_id" = none := by
  have h := c6_override dbW ⟨[]⟩ "pxx_dept_id" "phc_dept_t" (by decide)
  exact ⟨h.1 (by decide), h.2 (by decide)⟩

/-- Counterexample for C6 as stated: the override target `phc_dept_t` does
not exist in the catalog, a pluralization candidate `phc_depts_t` exists and
is resolvable (the `depts` entity resolves to it and produces options), yet
the `dept` resolution still uses the override and degrades to no options
instead of falling back to pluralization. -/
theorem c6_counterexample :
    manual_map (fk_entity "pxx_dept_id") = some "phc_dept_t" ∧
    findTable dbW "phc_dept_t" = none ∧
    "phc_depts_t" ∈ get_allowed_tables dbW ∧
    get_dropdown_options dbW "pxx_depts_id" =
      some [{ id := Value.vInt 1, name := "HR" }] ∧
    get_dropdown_options dbW "pxx_dept_id" = none := by
  refine ⟨by rfl, by rfl, by decide, by rfl, by rfl⟩

/-! ## Claim C7 — delete requires a key; absent keys delete idempotently -/

/-- C7: a table without a primary key rejects deletion with a client error
stating "Table has no Primary Key"; with a primary key, delete succeeds with
no existence pre-check — deleting a key with no matching row succeeds with a
zero affected-rows signal and leaves the database unchanged, and a second
delete of the same key after a first one also succeeds with zero affected
rows (idempotence). -/
theorem c7_delete (db : Database) (tn pv : String)
    (hmem : tn ∈ get_allowed_tables db) :
    (catalogPk db tn = none →
      delete_row db tn pv =
        ⟨.error "Table has no Primary Key" 400, 0, db,
          [Effect.registryRead, Effect.catalogRead tn]⟩) ∧
    (∀ pk T val, catalogPk db tn = some pk → findTable db tn = some T →
      deleteVal db tn pk pv = some val →
      (∀ t ∈ db.tables, t.name = tn → t = T) →
      (delete_row db tn pv).result = .success "deleted" ∧
      ((∀ r ∈ T.rows, ¬ lookupD r pk = some val) →
        (delete_row db tn pv).affected = 0 ∧ (delete_row db tn pv).db = db) ∧
      (delete_row (delete_row db tn pv).db tn pv).result = .success "deleted" ∧
      (delete_row (delete_row db tn pv).db tn pv).affected = 0) := by
  constructor
  · intro h
    simp [delete_row, hmem, h]
  · intro pk T val hpk hT hval hdup
    have hd : delete_row db tn pv =
        ⟨.success "deleted",
          (T.rows.filter (fun r => lookupD r pk = some val)).length,
          removeRows db tn pk val,
          [Effect.registryRead, Effect.catalogRead tn, Effect.catalogRead tn]
            ++ [Effect.write tn [pk], Effect.write "phc_user_log_t" logCols]⟩ := by
      simp [delete_row, hmem, hpk, hval, hT]
    have hmem1 : tn ∈ get_allowed_tables (removeRows db tn pk val) := by
      rw [get_allowed_tables_removeRows]; exact hmem
    have hpk1 : catalogPk (removeRows db tn pk val) tn = some pk := by
      rw [catalogPk_removeRows]; exact hpk
    have hval1 : deleteVal (removeRows db tn pk val) tn pk pv = some val := by
      unfold deleteVal schemaType at hval ⊢
      rw [catalogColumns_removeRows]
      exact hval
    have hT1 : findTable (removeRows db tn pk val) tn =
        some { T with rows := T.rows.filter (fun r => !(lookupD r pk = some val : Bool)) } :=
      findTable_removeRows db tn pk val T hT
    have hd1 : delete_row (removeRows db tn pk val) tn pv =
        ⟨.success "deleted",
          ((T.rows.filter (fun r => !(lookupD r pk = some val : Bool))).filter
            (fun r => lookupD r pk = some val)).length,
          removeRows (removeRows db tn pk val) tn pk val,
          [Effect.registryRead, Effect.catalogRead tn, Effect.catalogRead tn]
            ++ [Effect.write tn [pk], Effect.write "phc_user_log_t" logCols]⟩ := by
      simp [delete_row, hmem1, hpk1, hval1, hT1]
    refine ⟨by rw [hd], ?_, ?_, ?_⟩
    · intro hno
      have hfil : T.rows.filter (fun r => lookupD r pk = some val) = [] := by
        rw [List.filter_eq_nil_iff]
        intro r hr
        simp [hno r hr]
      have hkeep : T.rows.filter (fun r => !(lookupD r pk = some val : Bool)) = T.rows := by
        apply filter_eq_self_of_all
        intro r hr
        simp [hno r hr]
      constructor
      · rw [hd]
        simp [hfil]
      · rw [hd]
        show removeRows db tn pk val = db
        unfold removeRows
        have hmap : db.tables.map (fun t => if t.name = tn then
            { t with rows := t.rows.filter (fun r => !(lookupD r pk = some val : Bool)) }
            else t) = db.tables := by
          apply map_eq_self_of_all
          intro t ht
          by_cases hn : t.name = tn
          · rw [if_pos hn, hdup t ht hn]
            simp [hkeep]
          · rw [if_neg hn]
        rw [hmap]
    · rw [hd]
      show (delete_row (removeRows db tn pk val) tn pv).result = .success "deleted"
      rw [hd1]
    · rw [hd]
      show (delete_row (removeRows db tn pk val) tn pv).affected = 0
      rw [hd1]
      simp [filter_not_filter]

/-- Witness for C7: deleting from the key-less table rejects; deleting the
absent key 2 from the organisations table succeeds with zero affected rows,
leaves the database unchanged, and does so twice in a row. -/
theorem c7_delete_witness :
    delete_row dbW "phc_nopk_t" "1" =
      ⟨.error "Table has no Primary Key" 400, 0, dbW,
        [Effect.registryRead, Effect.catalogRead "phc_nopk_t"]⟩ ∧
    (delete_row dbW "phc_orgs_t" "2").result = .success "deleted" ∧
    (delete_row dbW "phc_orgs_t" "2").affected = 0 ∧
    (delete_row dbW "phc_orgs_t" "2").db = dbW ∧
    (delete_row (delete_row dbW "phc_orgs_t" "2").db "phc_orgs_t" "2").result =
      .success "deleted" ∧
    (delete_row (delete_row dbW "phc_orgs_t" "2").db "phc_orgs_t" "2").affected = 0 := by
  have h0 := (c7_delete dbW "phc_nopk_t" "1" (by decide)).1 (by rfl)
  have h := (c7_delete dbW "phc_orgs_t" "2" (by decide)).2 "por_org_id"
    ⟨"phc_orgs_t",
      [⟨"por_org_id", "integer", "NO"⟩, ⟨"por_code", "text", "YES"⟩,
       ⟨"por_name", "text", "YES"⟩],
      ["por_org_id"],
      [[("por_org_id", Value.vInt 1), ("por_code", Value.vStr "C1"),
        ("por_name", Value.vStr "N1")]]⟩
    (Value.vInt 2) (by rfl) (by rfl) (by rfl) (by decide)
  have hno := h.2.1 (by decide)
  exact ⟨h0, h.1, hno.1, hno.2, h.2.2.1, h.2.2.2⟩

/-! ## Claim C8 — numeric coercion of textual values -/

theorem buildCleanFull_ok (db : Database) (tn : String)
    (data cd : List (String × Value))
    (h : buildClean (catalogPk db tn) (catalogColumns db tn) [] data = .ok cd) :
    buildCleanFull db tn data = .ok (auditInject (catalogColumns db tn)
      (match catalogPk db tn with
       | some p => dictSet cd p (.vInt (nextIdVal db tn p))
       | none => cd)) := by
  show (match buildClean (catalogPk db tn) (catalogColumns db tn) [] data with
      | Except.error msg => Except.error msg
      | Except.ok cd =>
        Except.ok (auditInject (catalogColumns db tn)
          (match catalogPk db tn with
           | some p => dictSet cd p (Value.vInt (nextIdVal db tn p))
           | none => cd))) = _
  rw [h]

/-- C8 (amended): a textual value for an integer/numeric-family column is
coerced to an integer exactly when the *stripped* text is a pure digit
string or a minus sign followed by digits; any other textual value passes
through to the write in its **stripped** form (not the original string, and
a plus sign does not count as a coercible sign). -/
theorem c8_numeric_coercion (db : Database) (tn k s ty : String)
    (hs : s ≠ "")
    (haud : auditSuffixed k = false)
    (hpk : ¬ catalogPk db tn = some k)
    (hty : schemaType db tn k = some ty)
    (hnum : ty ∈ numFamilyCreate) :
    ∃ m, buildCleanFull db tn [(k, Value.vStr s)] = .ok m ∧
      lookupD m k = some (coerce_numeric s) ∧
      ((pyIsdigit (pyStrip s)
          || (strStartsWith (pyStrip s) "-" && pyIsdigit (strDrop (pyStrip s) 1))) = true →
        coerce_numeric s = Value.vInt (strToInt (pyStrip s))) ∧
      ((pyIsdigit (pyStrip s)
          || (strStartsWith (pyStrip s) "-" && pyIsdigit (strDrop (pyStrip s) 1))) = false →
        coerce_numeric s = Value.vStr (pyStrip s)) := by
  have hcond : ¬(Value.vStr s = Value.vStr "" ∨ Value.vStr s = Value.vNull
      ∨ catalogPk db tn = some k ∨ auditSuffixed k) := by
    intro h
    rcases h with h | h | h | h
    · exact hs (by injection h)
    · cases h
    · exact hpk h
    · rw [haud] at h
      cases h
  have hstep : coerceStep (catalogPk db tn) (catalogColumns db tn) [] k
      (Value.vStr s) = .ok (dictSet [] k (coerce_numeric s)) := by
    unfold coerceStep
    rw [if_neg hcond]
    unfold schemaType at hty
    rw [hty]
    simp only [numFamilyCreate, List.mem_cons, List.not_mem_nil, or_false] at hnum
    rcases hnum with rfl | rfl | rfl | rfl <;> rfl
  have hbc : buildClean (catalogPk db tn) (catalogColumns db tn) []
      [(k, Value.vStr s)] = .ok (dictSet [] k (coerce_numeric s)) := by
    rw [buildClean_cons, hstep]
    rfl
  have hby : (strEndsWith k "_created_by" || strEndsWith k "_modified_by") = false := by
    unfold auditSuffixed at haud
    simp only [Bool.or_eq_false_iff] at haud
    simp [haud.1.2, haud.2]
  refine ⟨_, buildCleanFull_ok db tn _ _ hbc, ?_, ?_, ?_⟩
  · rw [auditInject_lookup_not_by k hby]
    cases hcp : catalogPk db tn with
    | none => exact lookupD_dictSet_self _ _ _
    | some p =>
      have hp : k ≠ p := by
        intro e
        rw [e] at hpk
        exact hpk hcp
      rw [lookupD_dictSet_ne _ _ _ _ hp]
      exact lookupD_dictSet_self _ _ _
  · intro hb
    simp [coerce_numeric, hb]
  · intro hb
    simp [coerce_numeric, hb]

/-- Witness for C8: the value `" 7 "` for the integer column `pit_qty` is
stripped and coerced to the integer 7 inside the full create pipeline. -/
theorem c8_numeric_coercion_witness :
    ∃ m, buildCleanFull dbW "phc_items_t" [("pit_qty", Value.vStr " 7 ")] = .ok m ∧
      lookupD m "pit_qty" = some (coerce_numeric " 7 ") ∧
      ((pyIsdigit (pyStrip " 7 ")
          || (strStartsWith (pyStrip " 7 ") "-"
              && pyIsdigit (strDrop (pyStrip " 7 ") 1))) = true →
        coerce_numeric " 7 " = Value.vInt (strToInt (pyStrip " 7 "))) ∧
      ((pyIsdigit (pyStrip " 7 ")
          || (strStartsWith (pyStrip " 7 ") "-"
              && pyIsdigit (strDrop (pyStrip " 7 ") 1))) = false →
        coerce_numeric " 7 " = Value.vStr (pyStrip " 7 ")) :=
  c8_numeric_coercion dbW "phc_items_t" "pit_qty" " 7 " "integer"
    (by decide) (by decide) (by decide) (by decide) (by decide)

/-- Counterexample for C8 as stated: the value `" +5 "` for a numeric column
is neither coerced to the integer 5 (a plus sign is not accepted) nor passed
through unchanged — the stripped text `"+5"` is what reaches the write. -/
theorem c8_counterexample :
    coerce_numeric " +5 " = Value.vStr "+5" ∧
    ¬ (Value.vStr "+5" = Value.vInt 5) ∧
    ¬ (Value.vStr "+5" = Value.vStr " +5 ") ∧
    pyStrip " +5 " = "+5" ∧
    buildCleanFull dbW "phc_items_t" [("pit_qty", Value.vStr " +5 ")] =
      .ok [("pit_qty", Value.vStr "+5"), ("pit_item_id", Value.vInt 1),
        ("pit_created_by", Value.vStr "System"),
        ("pit_modified_by", Value.vStr "System")] := by
  refine ⟨by decide, by decide, by decide, by decide, by rfl⟩

/-! ## Claim C9 — label formatter totality and ordering -/

/-- C9: `make_human_readable` strips the scope prefix and table-type suffix
**before** the short-code check runs (it factors through `stripScope`, then
`shortCodeStep`, then the rendering stage), and when the stripped remainder
is shorter than 5 characters the short-code strip does not apply — the
position-3 access is guarded, and the function is total on all strings by
construction, so short inputs (length ≤ 4) never raise. -/
theorem c9_humanize (s : String) :
    make_human_readable s = labelFinish (shortCodeStep (stripScope s)) ∧
    ((stripScope s).length ≤ 4 →
      shortCodeStep (stripScope s) = stripScope s ∧
      make_human_readable s = labelFinish (stripScope s)) := by
  have h1 : make_human_readable s = labelFinish (shortCodeStep (stripScope s)) := rfl
  refine ⟨h1, ?_⟩
  intro hle
  have hnot : ¬ ((decide ((stripScope s).length > 4)
      && ((stripScope s).get? 3 == some '_')) = true) := by
    simp only [Bool.and_eq_true, decide_eq_true_eq]
    intro hcon
    exact absurd hcon.1 (Nat.not_lt.mpr hle)
  have h2 : shortCodeStep (stripScope s) = stripScope s := by
    unfold shortCodeStep
    rw [if_neg hnot]
  exact ⟨h2, by rw [h1, h2]⟩

/-- Witness for C9 at the short identifier `phc_usr_t`, whose stripped
remainder `usr` has length 3. -/
theorem c9_humanize_witness :
    shortCodeStep (stripScope "phc_usr_t") = stripScope "phc_usr_t" ∧
    make_human_readable "phc_usr_t" = labelFinish (stripScope "phc_usr_t") :=
  (c9_humanize "phc_usr_t").2 (by decide)

/-! ## Claim C10 — unknown field names reach the storage layer -/

/-- C10: a submitted field whose key is not a column of the target table
(non-empty, non-null value, not the primary key, not audit-suffixed)
survives coercion unchanged: the cleaned map is not restricted to the
table's schema, the unknown key is among the column names of the INSERT
statement's column list (the `write` effect), and the row written carries
the client value verbatim. -/
theorem c10_unknown_field (db : Database) (tn : String)
    (d1 d2 m : List (String × Value)) (k : String) (v : Value)
    (hmem : tn ∈ get_allowed_tables db)
    (hd2 : ∀ p ∈ d2, p.1 ≠ k)
    (hv1 : v ≠ Value.vStr "") (hv2 : v ≠ Value.vNull)
    (hpk : ¬ catalogPk db tn = some k)
    (haud : auditSuffixed k = false)
    (hsch : (catalogColumns db tn).find? (fun c => c.column_name = k) = none)
    (hok : buildCleanFull db tn (d1 ++ (k, v) :: d2) = .ok m) :
    lookupD m k = some v ∧
    k ∈ m.map (fun p => p.1) ∧
    (create_row db tn (d1 ++ (k, v) :: d2)).result = .success "success" ∧
    (create_row db tn (d1 ++ (k, v) :: d2)).db = appendRow db tn m ∧
    Effect.write tn (m.map (fun p => p.1)) ∈
      (create_row db tn (d1 ++ (k, v) :: d2)).effects := by
  have hcond : ¬(v = Value.vStr "" ∨ v = Value.vNull
      ∨ catalogPk db tn = some k ∨ auditSuffixed k) := by
    intro h
    rcases h with h | h | h | h
    · exact hv1 h
    · exact hv2 h
    · exact hpk h
    · rw [haud] at h
      cases h
  obtain ⟨cd, hcd, hm⟩ := buildCleanFull_parts db tn _ m hok
  rw [buildClean_append _ _ _ d1 []] at hcd
  have hlookcd : lookupD cd k = some v := by
    cases ha1 : buildClean (catalogPk db tn) (catalogColumns db tn) [] d1 with
    | error msg =>
      rw [ha1] at hcd
      cases (show (Except.error msg : Except String (List (String × Value))) =
        Except.ok cd from hcd)
    | ok a1 =>
      rw [ha1] at hcd
      have hcd2 : buildClean (catalogPk db tn) (catalogColumns db tn) a1
          ((k, v) :: d2) = Except.ok cd := hcd
      rw [buildClean_cons] at hcd2
      have hstep : coerceStep (catalogPk db tn) (catalogColumns db tn) a1 k v =
          .ok (dictSet a1 k v) := by
        unfold coerceStep
        rw [if_neg hcond, hsch]
        cases v <;> rfl
      rw [hstep] at hcd2
      have hcd3 : buildClean (catalogPk db tn) (catalogColumns db tn)
          (dictSet a1 k v) d2 = Except.ok cd := hcd2
      rw [buildClean_lookup_notin _ _ k d2 _ cd hd2 hcd3]
      exact lookupD_dictSet_self _ _ _
  have hby : (strEndsWith k "_created_by" || strEndsWith k "_modified_by") = false := by
    unfold auditSuffixed at haud
    simp only [Bool.or_eq_false_iff] at haud
    simp [haud.1.2, haud.2]
  have hlook : lookupD m k = some v := by
    rw [hm, auditInject_lookup_not_by k hby]
    cases hcp : catalogPk db tn with
    | none => exact hlookcd
    | some p =>
      have hp : k ≠ p := by
        intro e
        rw [e] at hpk
        exact hpk hcp
      rw [lookupD_dictSet_ne _ _ _ _ hp]
      exact hlookcd
  have hne : m ≠ [] := lookupD_ne_nil m k v hlook
  refine ⟨hlook, ?_, ?_, ?_, ?_⟩
  · exact List.mem_map_of_mem _ (lookupD_mem m k v hlook)
  · simp [create_row, hmem, hok, hne]
  · simp [create_row, hmem, hok, hne]
  · simp [create_row, hmem, hok, hne]

/-- Witness for C10: the unknown key `bogus_field` survives into the cleaned
map, the INSERT column list, and the written row of the concrete items
table. -/
theorem c10_unknown_field_witness :
    lookupD [("pit_name", Value.vStr "A"), ("bogus_field", Value.vStr "x"),
        ("pit_item_id", Value.vInt 1), ("pit_created_by", Value.vStr "System"),
        ("pit_modified_by", Value.vStr "System")] "bogus_field" =
      some (Value.vStr "x") ∧
    "bogus_field" ∈ ([("pit_name", Value.vStr "A"), ("bogus_field", Value.vStr "x"),
        ("pit_item_id", Value.vInt 1), ("pit_created_by", Value.vStr "System"),
        ("pit_modified_by", Value.vStr "System")].map (fun p => p.1)) ∧
    (create_row dbW "phc_items_t"
        ([("pit_name", Value.vStr "A")] ++ ("bogus_field", Value.vStr "x") :: [])).result =
      .success "success" ∧
    (create_row dbW "phc_items_t"
        ([("pit_name", Value.vStr "A")] ++ ("bogus_field", Value.vStr "x") :: [])).db =
      appendRow dbW "phc_items_t"
        [("pit_name", Value.vStr "A"), ("bogus_field", Value.vStr "x"),
          ("pit_item_id", Value.vInt 1), ("pit_created_by", Value.vStr "System"),
          ("pit_modified_by", Value.vStr "System")] ∧
    Effect.write "phc_items_t"
        ([("pit_name", Value.vStr "A"), ("bogus_field", Value.vStr "x"),
          ("pit_item_id", Value.vInt 1), ("pit_created_by", Value.vStr "System"),
          ("pit_modified_by", Value.vStr "System")].map (fun p => p.1)) ∈
      (create_row dbW "phc_items_t"
        ([("pit_name", Value.vStr "A")] ++ ("bogus_field", Value.vStr "x") :: [])).effects :=
  c10_unknown_field dbW "phc_items_t" [("pit_name", Value.vStr "A")] []
    _ "bogus_field" (Value.vStr "x") (by decide) (by decide)
    (by decide) (by decide) (by decide) (by decide) (by rfl) (by rfl)
